import Mathlib

/-!
Verification of the Laranja repository (a crypto alerting service):
shallow embedding of `src/main.py` (indicators, level derivation,
coherence repair, alert dedup/cooldown) and `src/coingecko_client.py`
(batched quote fetching and OHLC fetching with retry/backoff).

Python floats are modelled as rationals (`ℚ`), `None`-able values as
`Option`, dictionaries as association lists, and timestamps as rational
minutes.  Each definition carries a comment pointing to the source lines
it translates.
-/

namespace Laranja

/-! ## Configuration constants

`src/main.py:21-54` — ALERT_MODE defaults to "balanceado" and no ENV
overrides are present, so the balanced-profile constants apply.
`src/coingecko_client.py:21-28` — `config.py` is absent from the
repository, so the `except` branch installs the documented defaults. -/

def ALERT_CONF_MIN : ℚ := 65 / 100

def ALERT_COOLDOWN_MIN : ℚ := 30

def USE_ATR_LEVELS : Bool := true

def ATR_PERIOD : ℕ := 14

def TP_ATR_MULT : ℚ := 2

def SL_ATR_MULT : ℚ := 1

def TP_PCT : ℚ := 2 / 100

def SL_PCT : ℚ := 1 / 100

def MAX_RETRIES : ℕ := 5

def BACKOFF_BASE : ℚ := 18 / 10

def API_DELAY_BULK : ℚ := 15 / 10

def API_DELAY_OHLC : ℚ := 15 / 10

/-! ## Python-style rounding and truthiness -/

/-- Python's `round` on a value already scaled to an integer position:
round-half-to-even on a rational. -/
def pyRoundInt (x : ℚ) : ℤ :=
  let f : ℤ := Int.floor x
  let r : ℚ := x - f
  if r < 1 / 2 then f
  else if 1 / 2 < r then f + 1
  else if f % 2 = 0 then f else f + 1

/-- `round(x, digits)` from Python, on rationals. -/
def pyRound (digits : ℕ) (x : ℚ) : ℚ :=
  (pyRoundInt (x * 10 ^ digits) : ℚ) / 10 ^ digits

/-- `round(x, 6)` — used for alert signatures and payload prices
(`src/main.py:405`, `441-447`). -/
def round6 (x : ℚ) : ℚ := pyRound 6 x

/-- `round(x, 2)` — used for the reward:risk and atr% payload fields
(`src/main.py:452-454`). -/
def round2 (x : ℚ) : ℚ := pyRound 2 x

/-- Python truthiness of an optional float: `None` and `0.0` are falsy
(`if atr:` at `src/main.py:385`, `if atr_pct:` at `454`). -/
def truthyOpt (a : Option ℚ) : Bool :=
  match a with
  | none => false
  | some x => decide (x ≠ 0)

/-- Python `str.upper()` — `src/main.py:365`. -/
def pyUpper (s : String) : String := String.mk (s.data.map Char.toUpper)

/-! ## IndicatorEngine — `src/main.py:140-191` -/

/-- The running tail of `ema` (`src/main.py:146-148`): each new value is
`v*k + s*(1-k)` for the previous state `s`. -/
def emaLoop (k : ℚ) : ℚ → List ℚ → List ℚ
  | _, [] => []
  | s, v :: rest =>
    let s' := v * k + s * (1 - k)
    s' :: emaLoop k s' rest

/-- `ema(values, period)` — `src/main.py:140-149`. Seed is the mean of the
first `period` values; returns `[]` when fewer than `period` values. -/
def ema (values : List ℚ) (period : ℕ) : List ℚ :=
  if values.length < period then []
  else
    let k : ℚ := 2 / (period + 1)
    let s := (values.take period).sum / period
    s :: emaLoop k s (values.drop period)

/-- The running tail of `sma` (`src/main.py:156-158`): the window sum is
updated with `values[i] - values[i-period]`, paired here as
`zip (values.drop period) values`. -/
def smaLoop (p : ℚ) : ℚ → List (ℚ × ℚ) → List ℚ
  | _, [] => []
  | s, (vnew, vold) :: rest =>
    let s' := s + vnew - vold
    s' / p :: smaLoop p s' rest

/-- `sma(values, period)` — `src/main.py:151-159`. -/
def sma (values : List ℚ) (period : ℕ) : List ℚ :=
  if values.length < period then []
  else
    let s := (values.take period).sum
    s / period :: smaLoop period s ((values.drop period).zip values)

/-- `macd(values, fast, slow, signal)` — `src/main.py:161-172`: fast/slow
EMAs are right-aligned, subtracted into the MACD line, and the signal line
is the EMA of that line; the returned line is trimmed to the signal's
length. -/
def macd (values : List ℚ) (fast slow sigPeriod : ℕ) : List ℚ × List ℚ :=
  if values.length < slow + sigPeriod then ([], [])
  else
    let emaFast := ema values fast
    let emaSlow := ema values slow
    let offs : ℤ := (emaFast.length : ℤ) - emaSlow.length
    let emaFast := if 0 < offs then emaFast.drop offs.toNat else emaFast
    let emaSlow := if offs < 0 then emaSlow.drop (-offs).toNat else emaSlow
    let line := (emaFast.zip emaSlow).map fun p => p.1 - p.2
    let sig := ema line sigPeriod
    let offs2 : ℤ := (line.length : ℤ) - sig.length
    let line := if 0 < offs2 then line.drop offs2.toNat else line
    (line, sig)

/-- One OHLC candle `[ts, open, high, low, close]` from the provider
(`src/coingecko_client.py:173`). -/
structure Candle where
  ts : ℤ
  o : ℚ
  h : ℚ
  l : ℚ
  c : ℚ
deriving DecidableEq, Repr

/-- `_wilder_ema(prev, value, period)` — `src/main.py:174-175`. -/
def wilder_ema (prev value : ℚ) (period : ℕ) : ℚ :=
  (prev * ((period : ℚ) - 1) + value) / period

/-- The true-range list built by the loop at `src/main.py:181-185`:
one value per consecutive candle pair. -/
def trList : List Candle → List ℚ
  | [] => []
  | [_] => []
  | a :: b :: rest =>
    max (b.h - b.l) (max |b.h - a.c| |b.l - a.c|) :: trList (b :: rest)

/-- `compute_atr(candles, period)` — `src/main.py:177-191`. Needs at least
`period+1` candles; seeds with the mean of the first `period` true ranges
and then applies Wilder smoothing.  (The final `isnan` guard of the source
has no rational counterpart: rational arithmetic produces no NaN.) -/
def compute_atr (candles : List Candle) (period : ℕ) : Option ℚ :=
  let n := candles.length
  if n < period + 1 then none
  else
    let trs := trList candles
    if trs.length < period then none
    else
      let atr := (trs.take period).sum / period
      some ((trs.drop period).foldl (fun a tr => wilder_ema a tr period) atr)

/-- Modelled from the spec (§4.2 ATR): the Wilder reference definition —
true range per bar is `max(high-low, |high-prevClose|, |low-prevClose|)`
over candles paired with their predecessors, the initial ATR is the
arithmetic mean of the first `period` true ranges, and each later ATR is
`(prevAtr*(period-1) + currentTr)/period`; unavailable below `period+1`
candles.  Written from the spec's words to compare with `compute_atr`. -/
def atrWilderRef (candles : List Candle) (period : ℕ) : Option ℚ :=
  if candles.length < period + 1 then none
  else
    let trs := (candles.zip candles.tail).map fun pc =>
      max (pc.2.h - pc.2.l) (max |pc.2.h - pc.1.c| |pc.2.l - pc.1.c|)
    let seed := (trs.take period).sum / period
    some ((trs.drop period).foldl
      (fun prev tr => (prev * ((period : ℚ) - 1) + tr) / period) seed)

/-! ## Price levels and coherence repair — `src/main.py:193-220` -/

/-- `price_levels_by_atr(side, price, atr, tp_mult, sl_mult)` —
`src/main.py:193-201`. -/
def price_levels_by_atr (side : String) (price atr tp_mult sl_mult : ℚ) :
    ℚ × ℚ :=
  if side = "COMPRA" then (price + tp_mult * atr, price - sl_mult * atr)
  else (price - tp_mult * atr, price + sl_mult * atr)

/-- The fixed percentage fallback levels — `src/main.py:387-393`. -/
def pctLevels (side : String) (entry : ℚ) : ℚ × ℚ :=
  if side = "COMPRA" then (entry * (1 + TP_PCT), entry * (1 - SL_PCT))
  else (entry * (1 - TP_PCT), entry * (1 + SL_PCT))

/-- `enforce_coherence(side, entry, tp, sl)` — `src/main.py:203-220`:
swap target/stop when both are on the wrong side of the entry, then clamp
each level that is still incoherent using the percentage fallback. -/
def enforce_coherence (side : String) (entry tp sl : ℚ) : ℚ × ℚ :=
  if side = "COMPRA" then
    let tp1 := if tp ≤ entry ∧ entry ≤ sl then sl else tp
    let sl1 := if tp ≤ entry ∧ entry ≤ sl then tp else sl
    (if tp1 ≤ entry then entry * (1 + max TP_PCT (1 / 1000)) else tp1,
     if entry ≤ sl1 then entry * (1 - max SL_PCT (1 / 1000)) else sl1)
  else
    let tp1 := if entry ≤ tp ∧ sl ≤ entry then sl else tp
    let sl1 := if entry ≤ tp ∧ sl ≤ entry then tp else sl
    (if entry ≤ tp1 then entry * (1 - max TP_PCT (1 / 1000)) else tp1,
     if sl1 ≤ entry then entry * (1 + max SL_PCT (1 / 1000)) else sl1)

/-- The reward:risk computation — `src/main.py:399-402`. -/
def rewardRisk (side : String) (entry tp sl : ℚ) : ℚ :=
  if side = "COMPRA" then (tp - entry) / max (entry - sl) (1 / 10 ^ 12)
  else (entry - tp) / max (sl - entry) (1 / 10 ^ 12)

/-! ## Fetcher — `src/coingecko_client.py`

One HTTP attempt is modelled by the response it produced: a 200 with a
parsed body, any other status code (with the optional `Retry-After`
header value, read only on 429), or a `requests.RequestException` from
the call itself.  A request's attempt sequence is a list of such
responses, one per attempt the loop would make. -/

inductive HttpResp (α : Type) where
  | ok (data : α)
  | status (code : ℕ) (retryAfter : Option ℚ)
  | netErr
deriving DecidableEq, Repr

/-- `delay = min(delay * BACKOFF_BASE, 60.0)` — the backoff growth used in
every retry branch (`src/coingecko_client.py:141,149,160,195,203,212`). -/
def delayStep (d : ℚ) : ℚ := min (d * BACKOFF_BASE) 60

def isOk {α : Type} : HttpResp α → Bool
  | .ok _ => true
  | _ => false

/-- The classification of one loop iteration, shared verbatim by
`fetch_bulk_prices` (`src/coingecko_client.py:120-160`) and `fetch_ohlc`
(`183-212`): a 200 returns the body; a 429 or 5xx sleeps and grows the
delay; any other status reaches `resp.raise_for_status()`, which raises
`HTTPError` (a `RequestException`) for 4xx — caught by the `except`
handler, which also grows the delay — while a non-200 2xx/3xx raises
nothing and falls off the iteration with the delay unchanged; a network
error is likewise caught by the `except` handler.  The first component is
the parsed result (if the attempt succeeded), the second the value of
`delay` after the iteration. -/
def attemptOutcome {α : Type} (r : HttpResp α) (d : ℚ) : Option α × ℚ :=
  match r with
  | .ok a => (some a, d)
  | .status c _ =>
    if c = 429 then (none, delayStep d)
    else if 500 ≤ c ∧ c < 600 then (none, delayStep d)
    else if 400 ≤ c then (none, delayStep d)
    else (none, d)
  | .netErr => (none, delayStep d)

/-- The retry loop `for attempt in range(1, MAX_RETRIES + 1)`: runs up to
`fuel` attempts, returning the first successful body, or `none` on
exhaustion. -/
def runAttempts {α : Type} : List (HttpResp α) → ℚ → ℕ → Option α
  | _, _, 0 => none
  | [], _, _ + 1 => none
  | r :: rest, d, fuel + 1 =>
    match attemptOutcome r d with
    | (some a, _) => some a
    | (none, d') => runAttempts rest d' fuel

/-- How many attempts (HTTP requests) the loop performs on a given
response sequence before stopping (success or exhaustion). -/
def attemptsUsed {α : Type} : List (HttpResp α) → ℕ → ℕ
  | _, 0 => 0
  | [], _ + 1 => 0
  | r :: rest, fuel + 1 =>
    match r with
    | .ok _ => 1
    | .status _ _ => 1 + attemptsUsed rest fuel
    | .netErr => 1 + attemptsUsed rest fuel

/-- The successive values of the `delay` variable, one entry per attempt
performed (the value in force when that attempt runs). -/
def delayTrace {α : Type} : List (HttpResp α) → ℚ → ℕ → List ℚ
  | _, _, 0 => []
  | [], _, _ + 1 => []
  | r :: rest, d, fuel + 1 =>
    match attemptOutcome r d with
    | (some _, _) => [d]
    | (none, d') => d :: delayTrace rest d' fuel

/-- `fetch_ohlc` — `src/coingecko_client.py:169-215`: runs the retry loop
seeded with `API_DELAY_OHLC`; exhaustion returns the empty list
(line 214-215). -/
def fetch_ohlc (resps : List (HttpResp (List Candle))) : List Candle :=
  match runAttempts resps API_DELAY_OHLC MAX_RETRIES with
  | some data => data
  | none => []

/-- The per-coin body of a `/simple/price` entry
(`vs_currencies=usd&include_24hr_change=true`,
`src/coingecko_client.py:113`). -/
structure PriceEntry where
  usd : ℚ
  usd24hChange : ℚ
deriving DecidableEq, Repr

/-- A parsed bulk response: provider id → price entry. -/
abbrev BulkData := List (String × PriceEntry)

/-- `SYMBOL_TO_ID` — `src/coingecko_client.py:31-74`. -/
def SYMBOL_TO_ID : List (String × String) :=
  [("BTCUSDT", "bitcoin"), ("ETHUSDT", "ethereum"), ("BNBUSDT", "binancecoin"),
   ("XRPUSDT", "ripple"), ("ADAUSDT", "cardano"), ("DOGEUSDT", "dogecoin"),
   ("SOLUSDT", "solana"), ("MATICUSDT", "matic-network"), ("DOTUSDT", "polkadot"),
   ("LTCUSDT", "litecoin"), ("LINKUSDT", "chainlink"), ("TRXUSDT", "tron"),
   ("FILUSDT", "filecoin"), ("ATOMUSDT", "cosmos"), ("AVAXUSDT", "avalanche-2"),
   ("XLMUSDT", "stellar"), ("APTUSDT", "aptos"), ("INJUSDT", "injective-protocol"),
   ("ARBUSDT", "arbitrum"), ("OPUSDT", "optimism"), ("SUIUSDT", "sui"),
   ("PEPEUSDT", "pepe"), ("SHIBUSDT", "shiba-inu"), ("ETCUSDT", "ethereum-classic"),
   ("NEARUSDT", "near"), ("AAVEUSDT", "aave"), ("UNIUSDT", "uniswap"),
   ("XTZUSDT", "tezos"), ("ICPUSDT", "internet-computer"), ("FTMUSDT", "fantom"),
   ("GRTUSDT", "the-graph"), ("EGLDUSDT", "multiversx"), ("CHZUSDT", "chiliz"),
   ("ALGOUSDT", "algorand"), ("SANDUSDT", "the-sandbox"), ("MANAUSDT", "decentraland"),
   ("IMXUSDT", "immutable-x"), ("RUNEUSDT", "thorchain"), ("RNDRUSDT", "render-token"),
   ("TIAUSDT", "celestia"), ("JUPUSDT", "jupiter-exchange-solana"),
   ("PYTHUSDT", "pyth-network")]

/-- Python `str.lower()`. -/
def pyLower (s : String) : String := String.mk (s.data.map Char.toLower)

/-- `_to_cg_id` — `src/coingecko_client.py:84-94`: exact table lookup
after trim/upper, else strip a trailing "USDT"/"USDC" and lowercase. -/
def toCgId (symOrId : String) : String :=
  if symOrId = "" then ""
  else
    let s := pyUpper symOrId.trim
    match SYMBOL_TO_ID.lookup s with
    | some cid => cid
    | none =>
      let s2 := if s.endsWith "USDT" ∨ s.endsWith "USDC" then s.dropRight 4 else s
      pyLower s2

/-- The 200-handler of `fetch_bulk_prices`
(`src/coingecko_client.py:123-128`): for each ticker of the batch whose
provider id appears in the response body, record the body entry under the
original ticker. -/
def mergeBatch (out : BulkData) (batch : List String) (data : BulkData) :
    BulkData :=
  batch.foldl
    (fun acc s =>
      match data.lookup (toCgId s) with
      | some v => acc ++ [(s, v)]
      | none => acc)
    out

/-- The slicing loop `for i in range(0, len(symbols), batch_size)`
(`src/coingecko_client.py:110-111`), written with the list length as
structural fuel (one slice removes at least one element when
`0 < B`). -/
def chunksFuel {α : Type} (B : ℕ) : ℕ → List α → List (List α)
  | 0, _ => []
  | _ + 1, [] => []
  | fuel + 1, x :: xs => (x :: xs).take B :: chunksFuel B fuel ((x :: xs).drop B)

/-- The batches of at most `B` symbols taken in input order.  `B = 0`
(a `ValueError` for `range` in the source) yields no batches. -/
def chunks {α : Type} (B : ℕ) (xs : List α) : List (List α) :=
  if B = 0 then [] else chunksFuel B xs.length xs

/-- The per-batch loop body of `fetch_bulk_prices`
(`src/coingecko_client.py:110-163`): each batch runs its own retry
sequence; a successful batch merges its data into `out`, an exhausted
batch is logged and skipped (`for…else`, lines 161-163), and the loop
continues with the remaining batches either way. -/
def processBatches : List (List String × List (HttpResp BulkData)) →
    BulkData → BulkData
  | [], out => out
  | (batch, resps) :: rest, out =>
    match runAttempts resps API_DELAY_BULK MAX_RETRIES with
    | some data => processBatches rest (mergeBatch out batch data)
    | none => processBatches rest out

/-- `fetch_bulk_prices(symbols, batch_size)` —
`src/coingecko_client.py:98-165`, with `sched` supplying each batch's
response sequence. -/
def fetch_bulk_prices (symbols : List String) (batchSize : ℕ)
    (sched : List (List (HttpResp BulkData))) : BulkData :=
  processBatches ((chunks batchSize symbols).zip sched) []

/-- Total number of HTTP requests a `fetch_bulk_prices` call issues. -/
def totalRequests (symbols : List String) (batchSize : ℕ)
    (sched : List (List (HttpResp BulkData))) : ℕ :=
  (((chunks batchSize symbols).zip sched).map
    (fun p => attemptsUsed p.2 MAX_RETRIES)).sum

/-- Whether a response sequence starts with an immediate success. -/
def isOkHead {α : Type} : List (HttpResp α) → Bool
  | r :: _ => isOk r
  | [] => false

/-! ## AlertDecisionEngine — `src/main.py:322-464`

The per-symbol slice of one `collect_and_predict` cycle, from the
trigger test to the alert dispatch.  The per-symbol alert memory
(`_last_alert_time[symbol]`, `_last_alert_sig[symbol]`,
`src/main.py:136-137`) is `SymState`; time is rational minutes. -/

/-- The alert signature `(side, round(entry,6), round(tp,6), round(sl,6))`
— `src/main.py:405`. -/
structure Sig where
  side : String
  entry : ℚ
  tp : ℚ
  sl : ℚ
deriving DecidableEq, Repr

def mkSig (side : String) (entry tp sl : ℚ) : Sig :=
  ⟨side, round6 entry, round6 tp, round6 sl⟩

/-- Per-symbol alert memory across cycles. -/
structure SymState where
  lastT : Option ℚ
  lastSig : Option Sig
deriving DecidableEq, Repr

/-- `cooldown_ok = (not last_t) or ((now - last_t) >= timedelta(minutes=
ALERT_COOLDOWN_MIN))` — `src/main.py:407`.  (A `datetime` is always
truthy, so `not last_t` means exactly "no entry".) -/
def cooldown_ok (now : ℚ) (lastT : Option ℚ) : Bool :=
  match lastT with
  | none => true
  | some t => decide (ALERT_COOLDOWN_MIN ≤ now - t)

/-- The classifier output consumed by the alert rule —
`src/main.py:364-367`. -/
structure PredResult where
  confidence : ℚ
  signal : String
  probability_buy : ℚ
  probability_sell : ℚ
deriving DecidableEq, Repr

/-- The trigger test — `src/main.py:369-373`. -/
def trigger (conf : ℚ) (side : String) (probBuy probSell : ℚ) : Bool :=
  decide (ALERT_CONF_MIN ≤ conf) &&
    ((side == "COMPRA" && decide (ALERT_CONF_MIN ≤ probBuy)) ||
     (side == "VENDA" && decide (ALERT_CONF_MIN ≤ probSell)))

/-- The level derivation — `src/main.py:381-393`: ATR levels when the
flag is on and the computed ATR is truthy, otherwise the percentage
fallback. -/
def deriveLevels (side : String) (entry : ℚ) (atrOpt : Option ℚ) : ℚ × ℚ :=
  if USE_ATR_LEVELS && truthyOpt atrOpt then
    price_levels_by_atr side entry (atrOpt.getD 0) TP_ATR_MULT SL_ATR_MULT
  else pctLevels side entry

/-- `_sma(vals, n)` — `src/main.py:423-424`: last SMA value, `None` when
too short. -/
def smaLast (vals : List ℚ) (n : ℕ) : Option ℚ :=
  if n ≤ vals.length then (sma vals n).getLast? else none

/-- The trend label — `src/main.py:414,426-431`. -/
def trendLabel (closes : List ℚ) : String :=
  match smaLast closes 20, smaLast closes 50 with
  | some a, some b =>
    if b < a then "Alta" else if a < b then "Baixa" else "Neutra"
  | _, _ => "Neutra"

/-- The MACD label — `src/main.py:428,432-434`. -/
def macdLabel (closes : List ℚ) : String :=
  let p := macd closes 12 26 9
  match p.1.getLast?, p.2.getLast? with
  | some a, some b => if b < a then "Alta" else "Baixa"
  | _, _ => "—"

/-- `atr_pct` — `src/main.py:416-418`: set only when the ATR is truthy
and the entry is positive. -/
def atrPctOpt (atrOpt : Option ℚ) (entry : ℚ) : Option ℚ :=
  if truthyOpt atrOpt && decide (0 < entry) then
    some (atrOpt.getD 0 / entry * 100)
  else none

/-- The volatility label — `src/main.py:415-421`: bucketed from `atr_pct`
when available, else the placeholder. -/
def volLabel (atrOpt : Option ℚ) (entry : ℚ) : String :=
  match atrPctOpt atrOpt entry with
  | some ap => if ap < 3 / 2 then "Baixa" else if ap < 3 then "Média" else "Alta"
  | none => "—"

/-- `content["atr"] = round(atr, 6) if atr else None` —
`src/main.py:453`. -/
def payloadAtrField (atrOpt : Option ℚ) : Option ℚ :=
  if truthyOpt atrOpt then some (round6 (atrOpt.getD 0)) else none

/-- `content["atr_pct"] = round(atr_pct, 2) if atr_pct else None` —
`src/main.py:454`. -/
def payloadAtrPctField (ap : Option ℚ) : Option ℚ :=
  if truthyOpt ap then some (round2 (ap.getD 0)) else none

/-- The `content` dict handed to the notifier — `src/main.py:436-459`
(duplicate key aliases such as `entry`/`entry_price` collapsed). -/
structure Payload where
  symbol : String
  side : String
  entry : ℚ
  tp : ℚ
  sl : ℚ
  currentPrice : ℚ
  confidence : ℚ
  probability_buy : ℚ
  probability_sell : ℚ
  priceChange24h : ℚ
  rr : ℚ
  atr : Option ℚ
  atr_pct : Option ℚ
  trend : String
  macd_trend : String
  volatility : String
  timestamp : ℚ
deriving DecidableEq, Repr

def mkPayload (symbol side : String) (entry tp sl rr conf probBuy probSell
    pct24 priceNow now : ℚ) (atrOpt : Option ℚ) (closes : List ℚ) : Payload :=
  { symbol := symbol
    side := side
    entry := round6 entry
    tp := round6 tp
    sl := round6 sl
    currentPrice := round6 priceNow
    confidence := conf
    probability_buy := probBuy
    probability_sell := probSell
    priceChange24h := pct24
    rr := round2 rr
    atr := payloadAtrField atrOpt
    atr_pct := payloadAtrPctField (atrPctOpt atrOpt entry)
    trend := trendLabel closes
    macd_trend := macdLabel closes
    volatility := volLabel atrOpt entry
    timestamp := now }

/-- The observable actions of the dispatch branch, in program order:
`_last_alert_sig[symbol] = sig` (`src/main.py:410`), the
`notify_telegram_message` call handing the payload onward (`463`), and
`_last_alert_time[symbol] = now` (`464`). -/
inductive Ev where
  | sigSet (s : Sig)
  | dispatched (p : Payload)
  | timeSet (t : ℚ)
deriving DecidableEq, Repr

/-- Position of each event kind, for stating order facts. -/
def evTag : Ev → ℕ
  | .sigSet _ => 0
  | .dispatched _ => 1
  | .timeSet _ => 2

/-- One symbol's pass through the alert rule of `collect_and_predict`
(`src/main.py:363-464`): trigger test, ATR/percentage levels, coherence
repair, reward:risk, signature, cooldown + dedup, and — on dispatch —
the signature write, the notification, and the time write, in that
order.  Returns the new per-symbol state and the emitted events. -/
def alertStep (symbol : String) (pred : PredResult) (priceNow pct24 now : ℚ)
    (candles : List Candle) (st : SymState) (alreadySent : Bool) :
    SymState × List Ev :=
  let closes := candles.map (·.c)
  let conf := pred.confidence
  let side := pyUpper pred.signal
  if trigger conf side pred.probability_buy pred.probability_sell &&
      !alreadySent then
    let entry := priceNow
    let atrOpt := if USE_ATR_LEVELS then compute_atr candles ATR_PERIOD
      else none
    let lv := deriveLevels side entry atrOpt
    let rp := enforce_coherence side entry lv.1 lv.2
    let rr := rewardRisk side entry rp.1 rp.2
    let sig := mkSig side entry rp.1 rp.2
    if cooldown_ok now st.lastT && !(decide (st.lastSig = some sig)) then
      let p := mkPayload symbol side entry rp.1 rp.2 rr conf
        pred.probability_buy pred.probability_sell pct24 priceNow now
        atrOpt closes
      (⟨some now, some sig⟩, [Ev.sigSet sig, Ev.dispatched p, Ev.timeSet now])
    else (st, [])
  else (st, [])

/-- The payloads handed to the notifier among a step's events. -/
def dispatchedOf (evs : List Ev) : List Payload :=
  evs.filterMap fun e =>
    match e with
    | .dispatched p => some p
    | _ => none

/-- The candidate signature a symbol's pass computes before the
cooldown/dedup decision — the same pipeline as `alertStep`. -/
def candidateSig (pred : PredResult) (priceNow : ℚ)
    (candles : List Candle) : Sig :=
  let side := pyUpper pred.signal
  let atrOpt := if USE_ATR_LEVELS then compute_atr candles ATR_PERIOD
    else none
  let lv := deriveLevels side priceNow atrOpt
  let rp := enforce_coherence side priceNow lv.1 lv.2
  mkSig side priceNow rp.1 rp.2

/-- The payload a symbol's pass would dispatch — the same pipeline as
`alertStep`. -/
def candidatePayload (symbol : String) (pred : PredResult)
    (priceNow pct24 now : ℚ) (candles : List Candle) : Payload :=
  let closes := candles.map (·.c)
  let side := pyUpper pred.signal
  let atrOpt := if USE_ATR_LEVELS then compute_atr candles ATR_PERIOD
    else none
  let lv := deriveLevels side priceNow atrOpt
  let rp := enforce_coherence side priceNow lv.1 lv.2
  let rr := rewardRisk side priceNow rp.1 rp.2
  mkPayload symbol side priceNow rp.1 rp.2 rr pred.confidence
    pred.probability_buy pred.probability_sell pct24 priceNow now atrOpt
    closes

/-- `alertStep` written through `candidateSig`/`candidatePayload`: the
branch structure of `src/main.py:375,409-464` laid bare. -/
lemma alertStep_eq (symbol : String) (pred : PredResult)
    (priceNow pct24 now : ℚ) (candles : List Candle) (st : SymState)
    (sent : Bool) :
    alertStep symbol pred priceNow pct24 now candles st sent =
      if trigger pred.confidence (pyUpper pred.signal)
          pred.probability_buy pred.probability_sell && !sent then
        if cooldown_ok now st.lastT &&
            !(decide (st.lastSig = some (candidateSig pred priceNow candles))) then
          (⟨some now, some (candidateSig pred priceNow candles)⟩,
           [Ev.sigSet (candidateSig pred priceNow candles),
            Ev.dispatched (candidatePayload symbol pred priceNow pct24 now candles),
            Ev.timeSet now])
        else (st, [])
      else (st, []) := rfl

/-! ## Claim C2 — coherence repair -/

/-- C2: the claim quantifies over every raw `(entry, target, stop)` triple
of real numbers, but at `entry = 0` (with `tp = sl = 0`, side Buy) the
repaired target equals the entry instead of exceeding it: every clamp in
`enforce_coherence` scales `entry` multiplicatively, so a zero entry is a
fixed point and the strict ordering `target' > entry > stop'` fails. -/
theorem C2_counterexample :
    enforce_coherence "COMPRA" 0 0 0 = (0, 0) ∧
      ¬ (0 : ℚ) < (enforce_coherence "COMPRA" 0 0 0).1 := by
  constructor
  · simp [enforce_coherence]
  · simp [enforce_coherence]

/-- C2 (amended): for every side and every raw `(entry, target, stop)`
triple with a positive entry, the repaired levels satisfy the ordering
invariant — Buy: `target' > entry > stop'`; Sell: `target' < entry <
stop'`. -/
theorem C2_coherence_repair (entry tp sl : ℚ) (hpos : 0 < entry) :
    ((enforce_coherence "COMPRA" entry tp sl).2 < entry ∧
      entry < (enforce_coherence "COMPRA" entry tp sl).1) ∧
    ((enforce_coherence "VENDA" entry tp sl).1 < entry ∧
      entry < (enforce_coherence "VENDA" entry tp sl).2) := by
  have htp : max TP_PCT (1 / 1000 : ℚ) = 1 / 50 := by norm_num [TP_PCT]
  have hsl : max SL_PCT (1 / 1000 : ℚ) = 1 / 100 := by norm_num [SL_PCT]
  simp only [enforce_coherence, reduceIte, htp, hsl]
  refine ⟨⟨?_, ?_⟩, ?_, ?_⟩ <;> split_ifs <;> first | nlinarith | simp_all

/-- Witness for C2's amended theorem at `entry = 100`, `tp = 90`,
`sl = 110` (a swapped Buy setup). -/
theorem C2_witness :
    (0 : ℚ) < 100 ∧
    (((enforce_coherence "COMPRA" 100 90 110).2 < 100 ∧
        (100 : ℚ) < (enforce_coherence "COMPRA" 100 90 110).1) ∧
      ((enforce_coherence "VENDA" 100 90 110).1 < 100 ∧
        (100 : ℚ) < (enforce_coherence "VENDA" 100 90 110).2)) :=
  ⟨by norm_num, C2_coherence_repair 100 90 110 (by norm_num)⟩

/-! ## Claim C3 — non-retryable statuses -/

/-- C3: the claim says a status that is neither 200 nor 429 nor 5xx ends
the attempt sequence with no further retry.  In the code such a status
reaches `resp.raise_for_status()`; the `HTTPError` it raises for 4xx is a
`requests.RequestException`, caught by the surrounding `except`, which
backs off and retries.  Concretely: after a 404 on attempt 1, attempt 2
still runs and its 200 response is returned. -/
theorem C3_counterexample :
    attemptsUsed
        [HttpResp.status 404 none,
         HttpResp.ok [(⟨0, 1, 2, 0, 1⟩ : Candle)]] MAX_RETRIES = 2 ∧
      fetch_ohlc
        [HttpResp.status 404 none,
         HttpResp.ok [(⟨0, 1, 2, 0, 1⟩ : Candle)]] =
        [(⟨0, 1, 2, 0, 1⟩ : Candle)] :=
  ⟨rfl, rfl⟩

/-- C3 (amended): a response whose status is not 200 never terminates the
attempt sequence early — whatever the code (429, 5xx, other 4xx, or a
non-200 2xx/3xx), the loop proceeds to the next attempt with the delay
state produced by `attemptOutcome`, and one more attempt is counted; only
a 200 or exhaustion of `MAX_RETRIES` ends the sequence. -/
theorem C3_any_status_continues {α : Type} (c : ℕ) (ra : Option ℚ)
    (rest : List (HttpResp α)) (d : ℚ) (fuel : ℕ) :
    runAttempts (HttpResp.status c ra :: rest) d (fuel + 1) =
      runAttempts rest
        (attemptOutcome (HttpResp.status c ra : HttpResp α) d).2 fuel ∧
    attemptsUsed (HttpResp.status c ra :: rest) (fuel + 1) =
      1 + attemptsUsed rest fuel := by
  constructor
  · simp only [runAttempts, attemptOutcome]
    split_ifs <;> rfl
  · rfl

/-! ## Claim C5 — backoff delay invariant -/

lemma delayStep_bounds {d : ℚ} (h0 : 0 ≤ d) (h60 : d ≤ 60) :
    d ≤ delayStep d ∧ delayStep d ≤ 60 ∧ 0 ≤ delayStep d := by
  unfold delayStep BACKOFF_BASE
  refine ⟨le_min (by nlinarith) h60, min_le_right _ _,
    le_min (by nlinarith) (by norm_num)⟩

lemma attemptOutcome_snd {α : Type} (r : HttpResp α) (d : ℚ) :
    (attemptOutcome r d).2 = d ∨ (attemptOutcome r d).2 = delayStep d := by
  cases r with
  | ok a => exact Or.inl rfl
  | status c ra =>
    simp only [attemptOutcome]
    split_ifs <;> simp
  | netErr => exact Or.inr rfl

lemma delayTrace_first {α : Type} (rs : List (HttpResp α)) (d : ℚ)
    (fuel : ℕ) :
    delayTrace rs d fuel = [] ∨ (delayTrace rs d fuel).head? = some d := by
  cases fuel with
  | zero =>
    left
    cases rs <;> rfl
  | succ fuel =>
    cases rs with
    | nil => exact Or.inl rfl
    | cons r rest =>
      right
      simp only [delayTrace]
      rcases hout : attemptOutcome r d with ⟨o, d'⟩
      cases o <;> simp

/-- C5: within one request's retry sequence, the successive values of the
`delay` variable are non-decreasing and never exceed the 60-second
ceiling, for any seed in `[0, 60]` (the code seeds with 1.5). -/
theorem C5_backoff_monotone_bounded {α : Type} (resps : List (HttpResp α))
    (d : ℚ) (fuel : ℕ) (h0 : 0 ≤ d) (h60 : d ≤ 60) :
    List.Chain' (· ≤ ·) (delayTrace resps d fuel) ∧
      ∀ x ∈ delayTrace resps d fuel, x ≤ 60 := by
  induction fuel generalizing resps d with
  | zero => simp [delayTrace]
  | succ fuel ih =>
    cases resps with
    | nil => simp [delayTrace]
    | cons r rest =>
      simp only [delayTrace]
      rcases hout : attemptOutcome r d with ⟨o, d'⟩
      have hd' : d' = d ∨ d' = delayStep d := by
        have h := attemptOutcome_snd r d
        rw [hout] at h
        simpa using h
      have hbnd : 0 ≤ d' ∧ d' ≤ 60 ∧ d ≤ d' := by
        rcases hd' with h | h <;> rw [h]
        · exact ⟨h0, h60, le_refl _⟩
        · obtain ⟨a, b, c⟩ := delayStep_bounds h0 h60
          exact ⟨c, b, a⟩
      cases o with
      | some a => simp [h60]
      | none =>
        obtain ⟨ihc, ihb⟩ := ih rest d' hbnd.1 hbnd.2.1
        constructor
        · refine List.chain'_cons'.mpr ⟨?_, ihc⟩
          intro b hb
          rcases delayTrace_first rest d' fuel with he | hh
          · rw [he] at hb
            simp at hb
          · rw [hh] at hb
            simp at hb
            subst hb
            exact hbnd.2.2
        · intro x hx
          rcases List.mem_cons.mp hx with rfl | hx
          · exact h60
          · exact ihb x hx

/-- Witness for C5 at the code's OHLC seed 1.5 over a concrete
429 / network-error / success sequence. -/
theorem C5_witness :
    (0 : ℚ) ≤ 15 / 10 ∧ (15 / 10 : ℚ) ≤ 60 ∧
    (List.Chain' (· ≤ ·)
        (delayTrace
          [HttpResp.status 429 (some 3), HttpResp.netErr,
           HttpResp.ok (0 : ℚ)] (15 / 10) MAX_RETRIES) ∧
      ∀ x ∈ delayTrace
          [HttpResp.status 429 (some 3), HttpResp.netErr,
           HttpResp.ok (0 : ℚ)] (15 / 10) MAX_RETRIES, x ≤ 60) :=
  ⟨by norm_num, by norm_num,
    C5_backoff_monotone_bounded _ _ MAX_RETRIES (by norm_num) (by norm_num)⟩

/-! ## Claim C6 — exhaustion degrades, never raises -/

lemma attemptOutcome_fst_none {α : Type} (r : HttpResp α) (d : ℚ)
    (h : isOk r = false) : (attemptOutcome r d).1 = none := by
  cases r with
  | ok a => simp [isOk] at h
  | status c ra =>
    simp only [attemptOutcome]
    split_ifs <;> rfl
  | netErr => rfl

lemma runAttempts_none {α : Type} (resps : List (HttpResp α)) (d : ℚ)
    (fuel : ℕ) (h : ∀ r ∈ resps.take fuel, isOk r = false) :
    runAttempts resps d fuel = none := by
  induction fuel generalizing resps d with
  | zero => cases resps <;> rfl
  | succ fuel ih =>
    cases resps with
    | nil => rfl
    | cons r rest =>
      have hr : isOk r = false := h r (by simp [List.take_succ_cons])
      have h1 := attemptOutcome_fst_none r d hr
      simp only [runAttempts]
      rcases hout : attemptOutcome r d with ⟨o, d'⟩
      rw [hout] at h1
      simp only at h1
      subst h1
      exact ih rest d' fun x hx => h x (by simp [List.take_succ_cons, hx])

/-- C6: retry exhaustion never escapes as an exception.  `fetch_ohlc`
returns `[]` when none of its `MAX_RETRIES` attempts succeeds, and a
batch of `fetch_bulk_prices` whose attempts are all unsuccessful is
skipped while processing continues with the remaining batches, so the
call returns whatever the other batches produced. -/
theorem C6_exhaustion_degrades (resps : List (HttpResp (List Candle)))
    (bf : List String) (sf : List (HttpResp BulkData))
    (rest : List (List String × List (HttpResp BulkData))) (out : BulkData)
    (h1 : ∀ r ∈ resps.take MAX_RETRIES, isOk r = false)
    (h2 : ∀ r ∈ sf.take MAX_RETRIES, isOk r = false) :
    fetch_ohlc resps = [] ∧
      processBatches ((bf, sf) :: rest) out = processBatches rest out := by
  constructor
  · unfold fetch_ohlc
    rw [runAttempts_none resps API_DELAY_OHLC MAX_RETRIES h1]
  · simp only [processBatches]
    rw [runAttempts_none sf API_DELAY_BULK MAX_RETRIES h2]

/-- Witness for C6: five straight network failures for an OHLC request,
and a first batch of five straight 429s ahead of other batches. -/
theorem C6_witness :
    (∀ r ∈ (List.replicate 5 HttpResp.netErr :
        List (HttpResp (List Candle))).take MAX_RETRIES, isOk r = false) ∧
    (∀ r ∈ (List.replicate 5 (HttpResp.status 429 none) :
        List (HttpResp BulkData)).take MAX_RETRIES, isOk r = false) ∧
    (fetch_ohlc (List.replicate 5 HttpResp.netErr) = [] ∧
      processBatches
          [(["BTCUSDT"], List.replicate 5 (HttpResp.status 429 none))] [] =
        processBatches [] []) :=
  ⟨by decide, by decide,
    C6_exhaustion_degrades (List.replicate 5 HttpResp.netErr) ["BTCUSDT"]
      (List.replicate 5 (HttpResp.status 429 none)) [] []
      (by decide) (by decide)⟩

/-! ## Claim C4 — ATR against the Wilder reference -/

lemma trList_eq_zip (cs : List Candle) :
    trList cs = (cs.zip cs.tail).map fun pc =>
      max (pc.2.h - pc.2.l) (max |pc.2.h - pc.1.c| |pc.2.l - pc.1.c|) := by
  induction cs with
  | nil => rfl
  | cons a t ih =>
    cases t with
    | nil => rfl
    | cons b r =>
      simp only [trList, List.tail_cons, List.zip_cons_cons, List.map_cons]
      rw [ih]
      simp

/-- C4: `compute_atr` agrees with the Wilder reference definition written
from the spec (`atrWilderRef`) on every input, and returns `none` exactly
when fewer than `period + 1` candles are supplied. -/
theorem C4_atr_is_wilder (candles : List Candle) (period : ℕ) :
    compute_atr candles period = atrWilderRef candles period ∧
      (candles.length < period + 1 → compute_atr candles period = none) := by
  constructor
  · unfold compute_atr atrWilderRef
    by_cases h : candles.length < period + 1
    · simp [h]
    · have hlen : (trList candles).length = candles.length - 1 := by
        rw [trList_eq_zip]
        simp [List.length_zip, List.length_tail]
      have hguard : ¬ (trList candles).length < period := by omega
      rw [trList_eq_zip] at hguard
      simp only [h, if_false, hguard, trList_eq_zip, wilder_ema]
  · intro h
    unfold compute_atr
    simp [h]

/-- Witness for C4's insufficiency branch: three candles are fewer than
`ATR_PERIOD + 1 = 15`, so the ATR is unavailable. -/
theorem C4_witness :
    (List.replicate 3 (⟨0, 1, 1, 1, 1⟩ : Candle)).length < 14 + 1 ∧
      compute_atr (List.replicate 3 (⟨0, 1, 1, 1, 1⟩ : Candle)) 14 = none :=
  ⟨by simp, (C4_atr_is_wilder _ 14).2 (by simp)⟩

/-! ## Claim C7 — batch partitioning and request count -/

lemma chunksFuel_join {α : Type} {B : ℕ} (hB : 0 < B) (fuel : ℕ) :
    ∀ xs : List α, xs.length ≤ fuel → (chunksFuel B fuel xs).flatten = xs := by
  induction fuel with
  | zero =>
    intro xs h
    rw [List.length_eq_zero.mp (Nat.le_zero.mp h)]
    rfl
  | succ fuel ih =>
    intro xs h
    cases xs with
    | nil => rfl
    | cons x t =>
      simp only [chunksFuel, List.flatten]
      rw [ih ((x :: t).drop B) (by simp only [List.length_drop]; omega)]
      exact List.take_append_drop B (x :: t)

lemma chunksFuel_length {α : Type} {B : ℕ} (hB : 0 < B) (fuel : ℕ) :
    ∀ xs : List α, xs.length ≤ fuel →
      (chunksFuel B fuel xs).length = (xs.length + B - 1) / B := by
  induction fuel with
  | zero =>
    intro xs h
    rw [List.length_eq_zero.mp (Nat.le_zero.mp h)]
    simp [chunksFuel, Nat.div_eq_of_lt (show B - 1 < B by omega)]
  | succ fuel ih =>
    intro xs h
    cases xs with
    | nil => simp [chunksFuel, Nat.div_eq_of_lt (show B - 1 < B by omega)]
    | cons x t =>
      simp only [chunksFuel, List.length_cons]
      simp only [List.length_cons] at h
      rw [ih ((x :: t).drop B)
        (by simp only [List.length_drop, List.length_cons]; omega)]
      simp only [List.length_drop, List.length_cons]
      have e1 : t.length + 1 + B - 1 = t.length + B := by omega
      rw [e1, Nat.add_div_right _ hB]
      have e2 : (t.length + 1 - B + B - 1) / B = t.length / B := by
        by_cases hNB : B ≤ t.length + 1
        · have : t.length + 1 - B + B - 1 = t.length := by omega
          rw [this]
        · have h0 : t.length + 1 - B = 0 := by omega
          rw [h0, Nat.div_eq_of_lt (by omega), Nat.div_eq_of_lt (by omega)]
      rw [e2]

lemma chunksFuel_mem_length {α : Type} {B : ℕ} (fuel : ℕ) :
    ∀ (xs : List α) (c : List α), c ∈ chunksFuel B fuel xs → c.length ≤ B := by
  induction fuel with
  | zero =>
    intro xs c h
    simp [chunksFuel] at h
  | succ fuel ih =>
    intro xs c h
    cases xs with
    | nil => simp [chunksFuel] at h
    | cons x t =>
      simp only [chunksFuel] at h
      rcases List.mem_cons.mp h with rfl | h
      · rw [List.length_take]
        exact min_le_left _ _
      · exact ih _ _ h

lemma attemptsUsed_of_ok_head {α : Type} (s : List (HttpResp α))
    (h : isOkHead s = true) : attemptsUsed s MAX_RETRIES = 1 := by
  cases s with
  | nil => simp [isOkHead] at h
  | cons r rest =>
    cases r with
    | ok a => rfl
    | status c ra => simp [isOkHead, isOk] at h
    | netErr => simp [isOkHead, isOk] at h

lemma sum_map_ones {α : Type} (l : List α) (f : α → ℕ)
    (h : ∀ x ∈ l, f x = 1) : (l.map f).sum = l.length := by
  induction l with
  | nil => rfl
  | cons x t ih =>
    simp only [List.map_cons, List.sum_cons, List.length_cons]
    rw [h x (by simp), ih fun y hy => h y (by simp [hy])]
    omega

/-- C7: for a positive batch size `B`, `fetch_bulk_prices` partitions the
`N` symbols into exactly `⌈N/B⌉` consecutive batches of at most `B`
symbols each, in input order (their concatenation is the input list),
and issues exactly one request per batch when every batch succeeds on
its first attempt. -/
theorem C7_batch_partition (symbols : List String) (B : ℕ) (hB : 0 < B) :
    (chunks B symbols).length = (symbols.length + B - 1) / B ∧
    (∀ c ∈ chunks B symbols, c.length ≤ B) ∧
    (chunks B symbols).flatten = symbols ∧
    ∀ sched : List (List (HttpResp BulkData)),
      sched.length = (chunks B symbols).length →
      (∀ s ∈ sched, isOkHead s = true) →
      totalRequests symbols B sched = (chunks B symbols).length := by
  have hBne : ¬ B = 0 := by omega
  refine ⟨?_, ?_, ?_, ?_⟩
  · simp only [chunks, hBne, if_false]
    exact chunksFuel_length hB _ _ le_rfl
  · intro c hc
    simp only [chunks, hBne, if_false] at hc
    exact chunksFuel_mem_length _ _ _ hc
  · simp only [chunks, hBne, if_false]
    exact chunksFuel_join hB _ _ le_rfl
  · intro sched hlen hok
    unfold totalRequests
    rw [sum_map_ones _ _ fun p hp =>
      attemptsUsed_of_ok_head p.2 (hok p.2 (List.of_mem_zip hp).2)]
    rw [List.length_zip, hlen, min_self]

/-- Witness for C7 at the spec's own example: six symbols and batch size
five yield the batches `["A","B","C","D","E"]` and `["F"]`, and two
immediately-successful schedules mean exactly two requests. -/
theorem C7_witness :
    0 < 5 ∧
    chunks 5 ["A", "B", "C", "D", "E", "F"] =
      [["A", "B", "C", "D", "E"], ["F"]] ∧
    ((chunks 5 ["A", "B", "C", "D", "E", "F"]).length = (6 + 5 - 1) / 5 ∧
      (∀ c ∈ chunks 5 ["A", "B", "C", "D", "E", "F"], c.length ≤ 5) ∧
      (chunks 5 ["A", "B", "C", "D", "E", "F"]).flatten =
        ["A", "B", "C", "D", "E", "F"] ∧
      ∀ sched : List (List (HttpResp BulkData)),
        sched.length = (chunks 5 ["A", "B", "C", "D", "E", "F"]).length →
        (∀ s ∈ sched, isOkHead s = true) →
        totalRequests ["A", "B", "C", "D", "E", "F"] 5 sched =
          (chunks 5 ["A", "B", "C", "D", "E", "F"]).length) :=
  ⟨by norm_num, rfl, C7_batch_partition _ 5 (by norm_num)⟩

/-! ## Claim C1 — dispatch iff cooldown elapsed and signature changed -/

/-- C1: once a symbol's trigger fires (and it has not already alerted
this cycle), an alert is dispatched exactly when the cooldown has elapsed
(or no dispatch was ever recorded) AND the candidate signature differs
from the stored one; an unexpired cooldown suppresses even a changed
setup, and an identical signature suppresses even after the cooldown. -/
theorem C1_dispatch_iff (symbol : String) (pred : PredResult)
    (priceNow pct24 now : ℚ) (candles : List Candle) (st : SymState)
    (htrig : trigger pred.confidence (pyUpper pred.signal)
      pred.probability_buy pred.probability_sell = true) :
    (dispatchedOf
        (alertStep symbol pred priceNow pct24 now candles st false).2).length
        = 1 ↔
      (cooldown_ok now st.lastT = true ∧
        st.lastSig ≠ some (candidateSig pred priceNow candles)) := by
  rw [alertStep_eq]
  simp only [Bool.not_false, Bool.and_true, htrig, if_true]
  cases hcool : cooldown_ok now st.lastT with
  | false => simp [dispatchedOf]
  | true =>
    by_cases hd : st.lastSig = some (candidateSig pred priceNow candles)
    · simp [hd, dispatchedOf]
    · simp [hd, dispatchedOf]

/-- Witness for C1: a 70%-confidence Buy signal on a fresh symbol state
(no prior dispatch, no stored signature). -/
theorem C1_witness :
    trigger (7 / 10) (pyUpper "compra") (7 / 10) 0 = true ∧
    ((dispatchedOf
        (alertStep "BTCUSDT" ⟨7 / 10, "compra", 7 / 10, 0⟩ 100 0 0 []
          ⟨none, none⟩ false).2).length = 1 ↔
      (cooldown_ok 0 none = true ∧
        (none : Option Sig) ≠
          some (candidateSig ⟨7 / 10, "compra", 7 / 10, 0⟩ 100 []))) := by
  have ht : trigger (7 / 10) (pyUpper "compra") (7 / 10) 0 = true := by
    rw [show pyUpper "compra" = "COMPRA" from rfl]
    simp only [trigger, ALERT_CONF_MIN, Bool.and_eq_true, Bool.or_eq_true,
      decide_eq_true_eq, beq_iff_eq]
    exact ⟨by norm_num, Or.inl ⟨trivial, by norm_num⟩⟩
  exact ⟨ht,
    C1_dispatch_iff "BTCUSDT" ⟨7 / 10, "compra", 7 / 10, 0⟩ 100 0 0 []
      ⟨none, none⟩ ht⟩

/-! ## Claim C8 — AlertState frame and update order -/

/-- C8: the claim says BOTH AlertState fields are updated before the
payload is handed to the notifier.  In the source the signature is
written before the `notify_telegram_message` call, but the last-dispatch
time is written only after it (`src/main.py:410,463,464`).  At a concrete
dispatching input the event trace is `sigSet`, then `dispatched`, then
`timeSet` — the time update (tag 2) follows the hand-off (tag 1). -/
theorem C8_counterexample :
    ((alertStep "BTCUSDT" ⟨7 / 10, "COMPRA", 7 / 10, 0⟩ 100 0 0 []
        ⟨none, none⟩ false).2).map evTag = [0, 1, 2] := by
  rw [alertStep_eq]
  have ht : trigger (7 / 10) (pyUpper "COMPRA") (7 / 10) 0 = true := by
    rw [show pyUpper "COMPRA" = "COMPRA" from rfl]
    simp only [trigger, ALERT_CONF_MIN, Bool.and_eq_true, Bool.or_eq_true,
      decide_eq_true_eq, beq_iff_eq]
    exact ⟨by norm_num, Or.inl ⟨trivial, by norm_num⟩⟩
  simp only [ht, Bool.not_false, Bool.and_true, if_true]
  simp [cooldown_ok, evTag]

/-- C8 (amended): on suppression the per-symbol AlertState is left
completely unchanged and nothing is emitted; on dispatch the final state
carries both updated fields (time and signature), with the signature
written before the payload is handed onward and the dispatch time written
immediately after the hand-off. -/
theorem C8_state_frame (symbol : String) (pred : PredResult)
    (priceNow pct24 now : ℚ) (candles : List Candle) (st : SymState)
    (sent : Bool) :
    ((alertStep symbol pred priceNow pct24 now candles st sent).2 = [] ∧
      (alertStep symbol pred priceNow pct24 now candles st sent).1 = st) ∨
    (∃ s p,
      (alertStep symbol pred priceNow pct24 now candles st sent).2 =
        [Ev.sigSet s, Ev.dispatched p, Ev.timeSet now] ∧
      (alertStep symbol pred priceNow pct24 now candles st sent).1 =
        ⟨some now, some s⟩) := by
  rw [alertStep_eq]
  split_ifs with h1 h2
  · exact Or.inr ⟨_, _, rfl, rfl⟩
  · exact Or.inl ⟨rfl, rfl⟩
  · exact Or.inl ⟨rfl, rfl⟩

/-! ## Claim C10 — a computed ATR of exactly zero is treated as absent -/

/-- C10: when `compute_atr` returns exactly `0.0`, Python's `if atr:`
treats it as missing — the levels fall back to the fixed percentages, the
payload's `atr` and `atr_pct` fields are `None`, and the volatility label
stays the placeholder, even though an ATR value was computed. -/
theorem C10_zero_atr_unavailable (symbol : String) (pred : PredResult)
    (priceNow pct24 now : ℚ) (candles : List Candle) (st : SymState)
    (sent : Bool) (h : compute_atr candles ATR_PERIOD = some 0) :
    deriveLevels (pyUpper pred.signal) priceNow
        (if USE_ATR_LEVELS then compute_atr candles ATR_PERIOD else none) =
      pctLevels (pyUpper pred.signal) priceNow ∧
    ∀ p ∈ dispatchedOf
        (alertStep symbol pred priceNow pct24 now candles st sent).2,
      p.atr = none ∧ p.atr_pct = none ∧ p.volatility = "—" := by
  have hif :
      (if USE_ATR_LEVELS then compute_atr candles ATR_PERIOD else none) =
        some 0 := by
    simp [USE_ATR_LEVELS, h]
  constructor
  · rw [hif]
    simp [deriveLevels, truthyOpt]
  · rw [alertStep_eq]
    split_ifs with h1 h2
    · intro p hp
      have hp' : p = candidatePayload symbol pred priceNow pct24 now candles := by
        simpa [dispatchedOf] using hp
      subst hp'
      unfold candidatePayload mkPayload
      refine ⟨?_, ?_, ?_⟩ <;>
        simp [payloadAtrField, payloadAtrPctField, atrPctOpt, volLabel,
          truthyOpt, hif]
    · intro p hp
      simp [dispatchedOf] at hp
    · intro p hp
      simp [dispatchedOf] at hp

/-- Witness for C10: fifteen identical flat candles make every true range
zero, so `compute_atr` returns exactly `some 0`. -/
theorem C10_witness :
    compute_atr
        [(⟨0, 5, 5, 5, 5⟩ : Candle), ⟨0, 5, 5, 5, 5⟩, ⟨0, 5, 5, 5, 5⟩,
         ⟨0, 5, 5, 5, 5⟩, ⟨0, 5, 5, 5, 5⟩, ⟨0, 5, 5, 5, 5⟩, ⟨0, 5, 5, 5, 5⟩,
         ⟨0, 5, 5, 5, 5⟩, ⟨0, 5, 5, 5, 5⟩, ⟨0, 5, 5, 5, 5⟩, ⟨0, 5, 5, 5, 5⟩,
         ⟨0, 5, 5, 5, 5⟩, ⟨0, 5, 5, 5, 5⟩, ⟨0, 5, 5, 5, 5⟩, ⟨0, 5, 5, 5, 5⟩]
        ATR_PERIOD = some 0 ∧
    (deriveLevels (pyUpper "COMPRA") 100
        (if USE_ATR_LEVELS then
          compute_atr
            [(⟨0, 5, 5, 5, 5⟩ : Candle), ⟨0, 5, 5, 5, 5⟩, ⟨0, 5, 5, 5, 5⟩,
             ⟨0, 5, 5, 5, 5⟩, ⟨0, 5, 5, 5, 5⟩, ⟨0, 5, 5, 5, 5⟩,
             ⟨0, 5, 5, 5, 5⟩, ⟨0, 5, 5, 5, 5⟩, ⟨0, 5, 5, 5, 5⟩,
             ⟨0, 5, 5, 5, 5⟩, ⟨0, 5, 5, 5, 5⟩, ⟨0, 5, 5, 5, 5⟩,
             ⟨0, 5, 5, 5, 5⟩, ⟨0, 5, 5, 5, 5⟩, ⟨0, 5, 5, 5, 5⟩] ATR_PERIOD
        else none) =
      pctLevels (pyUpper "COMPRA") 100 ∧
    ∀ p ∈ dispatchedOf
        (alertStep "BTCUSDT" ⟨7 / 10, "COMPRA", 7 / 10, 0⟩ 100 0 0
          [(⟨0, 5, 5, 5, 5⟩ : Candle), ⟨0, 5, 5, 5, 5⟩, ⟨0, 5, 5, 5, 5⟩,
           ⟨0, 5, 5, 5, 5⟩, ⟨0, 5, 5, 5, 5⟩, ⟨0, 5, 5, 5, 5⟩, ⟨0, 5, 5, 5, 5⟩,
           ⟨0, 5, 5, 5, 5⟩, ⟨0, 5, 5, 5, 5⟩, ⟨0, 5, 5, 5, 5⟩, ⟨0, 5, 5, 5, 5⟩,
           ⟨0, 5, 5, 5, 5⟩, ⟨0, 5, 5, 5, 5⟩, ⟨0, 5, 5, 5, 5⟩, ⟨0, 5, 5, 5, 5⟩]
          ⟨none, none⟩ false).2,
      p.atr = none ∧ p.atr_pct = none ∧ p.volatility = "—") := by
  have h0 : compute_atr
      [(⟨0, 5, 5, 5, 5⟩ : Candle), ⟨0, 5, 5, 5, 5⟩, ⟨0, 5, 5, 5, 5⟩,
       ⟨0, 5, 5, 5, 5⟩, ⟨0, 5, 5, 5, 5⟩, ⟨0, 5, 5, 5, 5⟩, ⟨0, 5, 5, 5, 5⟩,
       ⟨0, 5, 5, 5, 5⟩, ⟨0, 5, 5, 5, 5⟩, ⟨0, 5, 5, 5, 5⟩, ⟨0, 5, 5, 5, 5⟩,
       ⟨0, 5, 5, 5, 5⟩, ⟨0, 5, 5, 5, 5⟩, ⟨0, 5, 5, 5, 5⟩, ⟨0, 5, 5, 5, 5⟩]
      ATR_PERIOD = some 0 := by
    simp only [ATR_PERIOD, compute_atr, trList]
    norm_num
  exact ⟨h0,
    C10_zero_atr_unavailable "BTCUSDT" ⟨7 / 10, "COMPRA", 7 / 10, 0⟩ 100 0 0 _
      ⟨none, none⟩ false h0⟩

end Laranja
